import Mathlib

/-!
Verification of the metadata reconciliation and safe mutation pipeline of
`music.py` (classical music metadata tagger).

Python strings are modelled as `List Char` (`PyStr`); Python string
operations (`split()`, `lower()`, `strip()`, `in`, slicing) are translated
directly.  A FLAC file's tag set is a map from physical tag keys to lists of
string values (mutagen semantics: `audio[k]` is a list; an absent key is the
empty list).  The filesystem is modelled explicitly where the code touches
it: a list of file names for the rename logic, and a partial map from paths
to byte contents for the transcoder.  The two unbounded `while` collision
loops are embedded with an explicit fuel parameter returning `none` when the
fuel is exhausted; every terminating run of the Python loop is reproduced by
a sufficiently large fuel.
-/

abbrev PyStr := List Char

/-- Python `s.lower()` (character-wise lowering). -/
def pyLower (s : PyStr) : PyStr := s.map Char.toLower

/-- Python `s.strip()`: drop whitespace from both ends. -/
def pyStrip (s : PyStr) : PyStr :=
  ((s.dropWhile Char.isWhitespace).reverse.dropWhile Char.isWhitespace).reverse

/-- Python `w in s` for strings: `w` occurs as a contiguous substring of `s`. -/
def containsSub (s w : PyStr) : Bool :=
  s.tails.any (fun t => w.isPrefixOf t)

/-- Helper for `pySplit`: accumulates the current (reversed) word. -/
def splitWsAux : PyStr → PyStr → List PyStr
  | [], acc => if acc = [] then [] else [acc.reverse]
  | c :: cs, acc =>
    if c.isWhitespace then
      if acc = [] then splitWsAux cs [] else acc.reverse :: splitWsAux cs []
    else splitWsAux cs (c :: acc)

/-- Python `s.split()` with no argument: split on whitespace runs, dropping
empty pieces. -/
def pySplit (s : PyStr) : List PyStr := splitWsAux s []

/-- Python `' - '.join(l)`. -/
def joinDash (l : List PyStr) : PyStr := List.intercalate " - ".data l

/-- Python `', '.join(l)`. -/
def joinComma (l : List PyStr) : PyStr := List.intercalate ", ".data l

/-- Python `d.get(k) or ''` on an optional string field: `None` collapses to
the empty string. -/
def orEmpty : Option PyStr → PyStr
  | none => []
  | some s => s

/-- Python `a or b` on strings: the first truthy (non-empty) operand. -/
def pyOr (a b : PyStr) : PyStr := if a = [] then b else a

/-! ## Tag store -/

/-- A FLAC file's Vorbis-comment tag set: each physical key holds a list of
string values; an absent key is the empty list (mutagen: a key with a falsy
value behaves like an absent key everywhere this program reads tags). -/
abbrev Tags := String → List PyStr

def emptyTags : Tags := fun _ => []

/-- `audio[k] = v` (mutagen assignment). -/
def setTag (t : Tags) (k : String) (v : List PyStr) : Tags :=
  fun k' => if k' = k then v else t k'

/-- Reading one field the way the audit loop does:
`str(current_metadata.get(K, '') or '')` where `get_current_metadata` stored
`audio[K][0]` for a single-valued key.  Absent key gives the empty string. -/
def tagFirst (t : Tags) (k : String) : PyStr :=
  match t k with
  | [] => []
  | v :: _ => v

/-- The per-field test of `has_proper_metadata`:
`tag in audio and audio[tag] and audio[tag][0].strip()`: key present with a
first value that is non-empty after stripping whitespace. -/
def fieldHasValue (audio : Tags) (tag : String) : Bool :=
  match audio tag with
  | [] => false
  | v :: _ => pyStrip v ≠ []

/-- The `required_fields` table of `has_proper_metadata`: logical role name
paired with its backing physical tag keys. -/
def required_fields : List (String × List String) :=
  [("composer", ["COMPOSER"]),
   ("work", ["ALBUM", "WORK"]),
   ("title", ["TITLE"]),
   ("artist", ["ARTIST", "ALBUMARTIST"])]

/-- `has_proper_metadata(audio)`: `(True, [])` when every logical role has a
backing tag with a non-whitespace value, else `(False, missing roles)`. -/
def has_proper_metadata (audio : Tags) : Bool × List String :=
  let missing :=
    (required_fields.filter
      (fun rf => ¬ rf.2.any (fun tag => fieldHasValue audio tag))).map (·.1)
  (missing.isEmpty, missing)

/-! ## Proposed metadata (the inference result) -/

/-- Duck-typed maybe-list-maybe-scalar JSON value used for `performers` and
`soloists`. -/
inductive PerfVal where
  | single (s : PyStr)
  | multi (l : List PyStr)
deriving DecidableEq

/-- The fields of the inferred metadata record that the program consumes.
Each is optional; a present-but-`null` JSON field and an absent field behave
identically through `dict.get`, so both are `none`. -/
structure Proposal where
  composer : Option PyStr := none
  work_full : Option PyStr := none
  work_short : Option PyStr := none
  work : Option PyStr := none
  movement : Option PyStr := none
  performers : Option PerfVal := none
  orchestra : Option PyStr := none
  soloists : Option PerfVal := none
  date : Option PyStr := none
  disc : Option PyStr := none
  track : Option PyStr := none
  suggested_filename : Option PyStr := none
deriving DecidableEq

/-- Python truthiness of a maybe-list-maybe-scalar field (`None`, `''` and
`[]` are falsy). -/
def pvTruthy : Option PerfVal → Bool
  | none => false
  | some (.single s) => s ≠ []
  | some (.multi l) => l ≠ []

/-- The string written to ARTIST/ALBUMARTIST: `', '.join(performers)` for a
list, the string itself for a scalar. -/
def artistString : Option PerfVal → PyStr
  | none => []
  | some (.single s) => s
  | some (.multi l) => joinComma l

/-- The value list written to PERFORMER: the list itself, or a singleton for
a scalar. -/
def soloistsVal : Option PerfVal → List PyStr
  | none => []
  | some (.single s) => [s]
  | some (.multi l) => l

/-- `metadata.get('work_full') or metadata.get('work_short') or
metadata.get('work')` in `apply_metadata_to_flac`. -/
def workFullVal (m : Proposal) : PyStr :=
  pyOr (pyOr (orEmpty m.work_full) (orEmpty m.work_short)) (orEmpty m.work)

/-- `metadata.get('work_short') or metadata.get('work_full') or
metadata.get('work')` in `apply_metadata_to_flac`. -/
def workShortVal (m : Proposal) : PyStr :=
  pyOr (pyOr (orEmpty m.work_short) (orEmpty m.work_full)) (orEmpty m.work)

/-- The tag-writing part of `apply_metadata_to_flac`: clear all existing
tags, then write each field derived from the proposal, in source order. -/
def apply_metadata_tags (audio : Tags) (m : Proposal) : Tags :=
  let a0 : Tags := fun _ => []
  let composer := orEmpty m.composer
  let a1 := if composer ≠ [] then setTag a0 "COMPOSER" [composer] else a0
  let workFull := workFullVal m
  let workShort := workShortVal m
  let a2 := if workFull ≠ [] then
      setTag (setTag a1 "ALBUM" [workFull]) "WORK" [workFull]
    else a1
  let movement := orEmpty m.movement
  let titleParts :=
    (if workShort ≠ [] then [workShort] else []) ++
    (if movement ≠ [] then [movement] else [])
  let a3 := if titleParts ≠ [] then setTag a2 "TITLE" [joinDash titleParts]
    else if workFull ≠ [] then setTag a2 "TITLE" [workFull]
    else a2
  let a4 := if movement ≠ [] then setTag a3 "MOVEMENT" [movement] else a3
  let a5 := if pvTruthy m.performers then
      setTag (setTag a4 "ARTIST" [artistString m.performers])
        "ALBUMARTIST" [artistString m.performers]
    else a4
  let orch := orEmpty m.orchestra
  let a6 := if orch ≠ [] then
      setTag (setTag a5 "ORCHESTRA" [orch]) "ENSEMBLE" [orch]
    else a5
  let a7 := if pvTruthy m.soloists then
      setTag a6 "PERFORMER" (soloistsVal m.soloists)
    else a6
  let a8 := if orEmpty m.date ≠ [] then setTag a7 "DATE" [orEmpty m.date] else a7
  let a9 := if orEmpty m.disc ≠ [] then
      setTag a8 "DISCNUMBER" [orEmpty m.disc]
    else a8
  if orEmpty m.track ≠ [] then setTag a9 "TRACKNUMBER" [orEmpty m.track] else a9

/-- The TITLE value of `apply_metadata_to_flac`, as one expression. -/
def titleVal (m : Proposal) : List PyStr :=
  let titleParts :=
    (if workShortVal m ≠ [] then [workShortVal m] else []) ++
    (if orEmpty m.movement ≠ [] then [orEmpty m.movement] else [])
  if titleParts ≠ [] then [joinDash titleParts]
  else if workFullVal m ≠ [] then [workFullVal m]
  else []

/-- Field-wise description of the tag set produced by
`apply_metadata_tags`. -/
def applyField (m : Proposal) (k : String) : List PyStr :=
  if k = "COMPOSER" then
    (if orEmpty m.composer ≠ [] then [orEmpty m.composer] else [])
  else if k = "ALBUM" then
    (if workFullVal m ≠ [] then [workFullVal m] else [])
  else if k = "WORK" then
    (if workFullVal m ≠ [] then [workFullVal m] else [])
  else if k = "TITLE" then titleVal m
  else if k = "MOVEMENT" then
    (if orEmpty m.movement ≠ [] then [orEmpty m.movement] else [])
  else if k = "ARTIST" then
    (if pvTruthy m.performers then [artistString m.performers] else [])
  else if k = "ALBUMARTIST" then
    (if pvTruthy m.performers then [artistString m.performers] else [])
  else if k = "ORCHESTRA" then
    (if orEmpty m.orchestra ≠ [] then [orEmpty m.orchestra] else [])
  else if k = "ENSEMBLE" then
    (if orEmpty m.orchestra ≠ [] then [orEmpty m.orchestra] else [])
  else if k = "PERFORMER" then
    (if pvTruthy m.soloists then soloistsVal m.soloists else [])
  else if k = "DATE" then
    (if orEmpty m.date ≠ [] then [orEmpty m.date] else [])
  else if k = "DISCNUMBER" then
    (if orEmpty m.disc ≠ [] then [orEmpty m.disc] else [])
  else if k = "TRACKNUMBER" then
    (if orEmpty m.track ≠ [] then [orEmpty m.track] else [])
  else []

/-! ## Audit decision logic (`process_folder_audit`, lines 713-775) -/

/-- The keyword list:
`[w.lower() for w in new_work_short.split() if len(w) > 3]`. -/
def workKeywords (s : PyStr) : List PyStr :=
  ((pySplit s).filter (fun w => 3 < w.length)).map pyLower

/-- `matches >= len(work_keywords) * 0.5` where
`matches = sum(1 for kw in work_keywords if kw in s)`.  The float comparison
`m >= n * 0.5` on these integer counts is exactly `n ≤ 2 * m`. -/
def coverageOK (s : PyStr) (ks : List PyStr) : Bool :=
  ks.length ≤ 2 * (ks.filter (fun kw => containsSub s kw)).length

/-- `current_title_has_work`: the coverage test is run only when both the
proposed short work name and the current title are truthy. -/
def currentTitleHasWork (currentTitle : PyStr) (m : Proposal) : Bool :=
  if orEmpty m.work_short ≠ [] ∧ currentTitle ≠ [] then
    coverageOK (pyLower currentTitle) (workKeywords (orEmpty m.work_short))
  else false

/-- `ideal_title`: `' - '.join` of the truthy parts among
(work_short, movement). -/
def idealTitle (m : Proposal) : PyStr :=
  joinDash ((if orEmpty m.work_short ≠ [] then [orEmpty m.work_short] else []) ++
    (if orEmpty m.movement ≠ [] then [orEmpty m.movement] else []))

/-- The TITLE entry of the audit diff list, when flagged. -/
def titleChangeOf (currentTitle : PyStr) (m : Proposal) : Option (PyStr × PyStr) :=
  if ¬ currentTitleHasWork currentTitle m = true ∧ idealTitle m ≠ [] ∧
      pyStrip (pyLower currentTitle) ≠ pyStrip (pyLower (idealTitle m)) then
    some (currentTitle, idealTitle m)
  else none

/-- The COMPOSER entry of the audit diff list, when flagged. -/
def composerChangeOf (currentComposer : PyStr) (m : Proposal) : Option (PyStr × PyStr) :=
  if orEmpty m.composer ≠ [] ∧
      pyStrip (pyLower currentComposer) ≠ pyStrip (pyLower (orEmpty m.composer)) ∧
      (currentComposer = [] ∨
        ¬ containsSub (pyLower (orEmpty m.composer)) (pyLower currentComposer) = true) then
    some (currentComposer, orEmpty m.composer)
  else none

/-- `current_has_work_in_name`: coverage test of the work keywords against
the current filename stem. -/
def currentHasWorkInName (currentFilename : PyStr) (m : Proposal) : Bool :=
  if orEmpty m.work_short ≠ [] then
    coverageOK (pyLower currentFilename) (workKeywords (orEmpty m.work_short))
  else false

/-- The FILENAME entry of the audit diff list, when flagged. -/
def renameChangeOf (currentFilename : PyStr) (m : Proposal) : Option (PyStr × PyStr) :=
  if orEmpty m.suggested_filename ≠ [] then
    if ¬ currentHasWorkInName currentFilename m = true ∧
        orEmpty m.suggested_filename ≠ currentFilename then
      some (currentFilename, orEmpty m.suggested_filename)
    else none
  else none

/-- The audit decision for one file: the three possible diff entries. -/
structure AuditDecision where
  titleChange : Option (PyStr × PyStr)
  composerChange : Option (PyStr × PyStr)
  renameChange : Option (PyStr × PyStr)
deriving DecidableEq

/-- The reconciliation decision of the audit policy, computed from the
current TITLE and COMPOSER tag values, the current filename stem, and the
proposal. -/
def auditDecide (currentTitle currentComposer currentFilename : PyStr)
    (m : Proposal) : AuditDecision :=
  ⟨titleChangeOf currentTitle m, composerChangeOf currentComposer m,
   renameChangeOf currentFilename m⟩

/-- `changes_detected`: some diff entry is present. -/
def changesDetected (d : AuditDecision) : Bool :=
  d.titleChange.isSome || d.composerChange.isSome || d.renameChange.isSome

/-- Result of `get_metadata_from_openrouter`: `failure` is a `None` return
(network or JSON-parse error); `dict hasKeys p` is a parsed JSON object,
where `hasKeys = false` means the object is empty `{}` (falsy in Python).
A present key whose value is `null` is recorded as `none` in `p`. -/
inductive InferResult where
  | failure
  | dict (hasKeys : Bool) (p : Proposal)

/-- Per-file outcome counter bucket of the audit loop (with auto-approve,
live mode). -/
inductive AuditOutcome where
  | verified
  | updated
  | failed
deriving DecidableEq

/-- How one file is classified by `process_folder_audit` after a successful
FLAC read, with auto-approve on: a falsy inference result counts as failed;
otherwise the decision's `changes_detected` selects updated or verified. -/
def auditOutcome (currentTitle currentComposer currentFilename : PyStr)
    (inf : InferResult) : AuditOutcome :=
  match inf with
  | .failure => .failed
  | .dict hasKeys p =>
    if hasKeys then
      if changesDetected (auditDecide currentTitle currentComposer currentFilename p)
      then .updated else .verified
    else .failed

/-- Per-file outcome counter bucket of the normal (populate) loop. -/
inductive NormalOutcome where
  | processed
  | skippedHasMetadata
  | failed
deriving DecidableEq

/-- How one file is processed by `process_folder_normal` after a successful
FLAC read (live mode): files passing `has_proper_metadata` are skipped; a
falsy inference result counts as failed; otherwise the proposal is applied
wholesale.  Returns the outcome and the resulting tag set. -/
def normalStep (audio : Tags) (inf : InferResult) : NormalOutcome × Tags :=
  if (has_proper_metadata audio).1 then (.skippedHasMetadata, audio)
  else
    match inf with
    | .failure => (.failed, audio)
    | .dict hasKeys p =>
      if hasKeys then (.processed, apply_metadata_tags audio p)
      else (.failed, audio)

/-! ## Safe renamer (`sanitize_filename`, `rename_file`) -/

/-- The characters `sanitize_filename` removes: `<>:"/\|?*`. -/
def invalidChars : PyStr := "<>:\"/\\|?*".data

/-- `sanitize_filename`: remove invalid characters, collapse whitespace runs
(`' '.join(filename.split())`), truncate to 200 characters, strip. -/
def sanitize_filename (s : PyStr) : PyStr :=
  let s1 := s.filter (fun c => ¬ invalidChars.contains c)
  let s2 := List.intercalate [' '] (pySplit s1)
  let s3 := if 200 < s2.length then s2.take 200 else s2
  pyStrip s3

/-- The candidate stem tried at loop counter `k`:
`f"{new_filename} ({counter})"`. -/
def candidateStem (base : PyStr) (k : Nat) : PyStr :=
  base ++ " (".data ++ (Nat.repr k).data ++ ")".data

/-- The collision `while` loop of `rename_file`, with fuel.  `cur` is the
current candidate stem; the loop repeats while `cur ++ suffix` names an
existing file different from the file being renamed. -/
def renameLoop (fs : List PyStr) (selfFull suffix : PyStr) (base : PyStr)
    (cur : PyStr) (counter : Nat) : Nat → Option PyStr
  | 0 => none
  | fuel + 1 =>
    if cur ++ suffix ∈ fs ∧ cur ++ suffix ≠ selfFull then
      renameLoop fs selfFull suffix base (candidateStem base counter) (counter + 1) fuel
    else some cur

/-- `rename_file` over a directory listing `fs` (full file names).  The file
being renamed is `selfStem ++ suffix`.  Returns the new listing, the new
stem, and whether a rename happened; `none` when the collision loop did not
finish within `fuel`. -/
def rename_file (fs : List PyStr) (selfStem suffix desired : PyStr)
    (fuel : Nat) : Option (List PyStr × PyStr × Bool) :=
  let base := sanitize_filename desired
  if base ++ suffix = selfStem ++ suffix then some (fs, selfStem, false)
  else
    match renameLoop fs (selfStem ++ suffix) suffix base base 1 fuel with
    | none => none
    | some stem' =>
      some ((stem' ++ suffix) :: fs.erase (selfStem ++ suffix), stem', true)

/-! ## Format sniffer and transcoder (`detect_actual_format`, `convert_to_flac`) -/

abbrev Content := List Nat

/-- The filesystem as a partial map from paths to file contents. -/
abbrev Fsm := String → Option Content

inductive AudioFormat where
  | flac | wav | mp3 | ogg | m4a | unknown
deriving DecidableEq

/-- `detect_actual_format`: classify by magic bytes in the first 12 bytes. -/
def detect_actual_format (c : Content) : AudioFormat :=
  let header := c.take 12
  if header.take 4 = [0x66, 0x4C, 0x61, 0x43] then .flac
  else if header.take 4 = [0x52, 0x49, 0x46, 0x46] ∧
      ((header.drop 8).take 4 = [0x57, 0x41, 0x56, 0x45]) then .wav
  else if header.take 3 = [0x49, 0x44, 0x33] ∨ header.take 2 = [0xff, 0xfb] then .mp3
  else if header.take 4 = [0x4F, 0x67, 0x67, 0x53] then .ogg
  else if (header.drop 4).take 4 = [0x66, 0x74, 0x79, 0x70] ∨
      header.take 4 = [0, 0, 0, 0x18] ∨
      header.take 4 = [0, 0, 0, 0x1c] ∨
      header.take 4 = [0, 0, 0, 0x20] then .m4a
  else .unknown

def formatStr : AudioFormat → String
  | .flac => "flac"
  | .wav => "wav"
  | .mp3 => "mp3"
  | .ogg => "ogg"
  | .m4a => "m4a"
  | .unknown => "unknown"

/-- Behaviour of one `ffmpeg` invocation: exit code, the content written to
the output path (if any), and whether the produced file passes
`validate_flac_file`.  (`-y` makes the output path's content after the run
exactly what ffmpeg wrote.) -/
structure FfmpegRun where
  rc : Nat
  output : Option Content
  validOut : Bool

/-- Events of one `convert_to_flac` run, for ordering properties. -/
inductive CEvent where
  | ranEncoder
  | deletedTemp
  | movedToBackup (p : String)
  | installedCanonical
deriving DecidableEq

/-- `shutil.move src dst` on the path map. -/
def moveFile (fs : Fsm) (src dst : String) : Fsm :=
  fun p => if p = dst then fs src else if p = src then none else fs p

/-- Backup name candidates: `{stem}_original_{fmt}{suffix}` first, then
`{stem}_original_{fmt}_{counter}{suffix}`. -/
def backupCand (bdir stem fmt suffix : String) (k : Nat) : String :=
  if k = 0 then bdir ++ "/" ++ stem ++ "_original_" ++ fmt ++ suffix
  else bdir ++ "/" ++ stem ++ "_original_" ++ fmt ++ "_" ++ Nat.repr k ++ suffix

/-- The backup-name collision `while` loop of `convert_to_flac`, with fuel. -/
def backupLoop (fs : Fsm) (cand : Nat → String) (cur : String)
    (counter : Nat) : Nat → Option String
  | 0 => none
  | fuel + 1 =>
    if (fs cur).isSome then backupLoop fs cand (cand counter) (counter + 1) fuel
    else some cur

/-- `convert_to_flac` for the file `dir ++ stem ++ suffix`.  `enc = none`
models `ffmpeg` missing from the PATH; otherwise `enc` describes the
encoder run.  Returns `(success, final filesystem, event trace)`; `none`
when the backup collision loop did not finish within `fuel`.  File moves
are modelled as always succeeding. -/
def convert_to_flac (fs : Fsm) (dir stem suffix bdir : String)
    (enc : Option FfmpegRun) (fuel : Nat) : Option (Bool × Fsm × List CEvent) :=
  let filePath := dir ++ stem ++ suffix
  match enc with
  | none => some (false, fs, [])
  | some run =>
    let fmt := formatStr (match fs filePath with
      | none => .unknown
      | some c => detect_actual_format c)
    let tempPath := dir ++ "." ++ stem ++ "_converted.flac"
    let fs1 : Fsm := fun p => if p = tempPath then run.output else fs p
    if run.rc ≠ 0 then
      some (false, fun p => if p = tempPath then none else fs1 p,
        [.ranEncoder, .deletedTemp])
    else if (fs1 tempPath).isNone then
      some (false, fs1, [.ranEncoder])
    else
      (backupLoop fs1 (backupCand bdir stem fmt suffix)
          (backupCand bdir stem fmt suffix 0) 1 fuel).map (fun bk =>
        (run.validOut, moveFile (moveFile fs1 filePath bk) tempPath filePath,
          [.ranEncoder, .movedToBackup bk, .installedCanonical]))

/-! ## Helper lemmas -/

theorem setTag_same (t : Tags) (k : String) (v : List PyStr) :
    setTag t k v k = v := by simp [setTag]

theorem setTag_other (t : Tags) (k k' : String) (v : List PyStr)
    (h : k' ≠ k) : setTag t k v k' = t k' := by simp [setTag, h]

/-- The imperative write sequence of `apply_metadata_tags` produces exactly
the field-wise description `applyField`; in particular the prior tag set is
irrelevant (it is cleared first). -/
theorem apply_metadata_tags_eq (t : Tags) (m : Proposal) (k : String) :
    apply_metadata_tags t m k = applyField m k := by
  by_cases h1 : k = "COMPOSER"
  · subst h1; simp [apply_metadata_tags, applyField, setTag, titleVal, ite_apply]
  by_cases h2 : k = "ALBUM"
  · subst h2; simp [apply_metadata_tags, applyField, setTag, titleVal, ite_apply, h1]
  by_cases h3 : k = "WORK"
  · subst h3; simp [apply_metadata_tags, applyField, setTag, titleVal, ite_apply, h1, h2]
  by_cases h4 : k = "TITLE"
  · subst h4; simp [apply_metadata_tags, applyField, setTag, titleVal, ite_apply, h1, h2, h3]
  by_cases h5 : k = "MOVEMENT"
  · subst h5; simp [apply_metadata_tags, applyField, setTag, titleVal, ite_apply, h1, h2, h3, h4]
  by_cases h6 : k = "ARTIST"
  · subst h6; simp [apply_metadata_tags, applyField, setTag, titleVal, ite_apply, h1, h2, h3, h4, h5]
  by_cases h7 : k = "ALBUMARTIST"
  · subst h7; simp [apply_metadata_tags, applyField, setTag, titleVal, ite_apply, h1, h2, h3, h4, h5, h6]
  by_cases h8 : k = "ORCHESTRA"
  · subst h8; simp [apply_metadata_tags, applyField, setTag, titleVal, ite_apply, h1, h2, h3, h4, h5, h6, h7]
  by_cases h9 : k = "ENSEMBLE"
  · subst h9; simp [apply_metadata_tags, applyField, setTag, titleVal, ite_apply, h1, h2, h3, h4, h5, h6, h7, h8]
  by_cases h10 : k = "PERFORMER"
  · subst h10; simp [apply_metadata_tags, applyField, setTag, titleVal, ite_apply, h1, h2, h3, h4, h5, h6, h7, h8, h9]
  by_cases h11 : k = "DATE"
  · subst h11
    simp [apply_metadata_tags, applyField, setTag, titleVal, ite_apply, h1, h2, h3, h4, h5, h6, h7, h8, h9, h10]
  by_cases h12 : k = "DISCNUMBER"
  · subst h12
    simp [apply_metadata_tags, applyField, setTag, titleVal, ite_apply, h1, h2, h3, h4, h5, h6, h7, h8, h9, h10, h11]
  by_cases h13 : k = "TRACKNUMBER"
  · subst h13
    simp [apply_metadata_tags, applyField, setTag, titleVal, ite_apply, h1, h2, h3, h4, h5, h6, h7, h8, h9, h10, h11, h12]
  simp [apply_metadata_tags, applyField, setTag, titleVal, ite_apply, h1, h2, h3, h4, h5, h6, h7, h8, h9, h10, h11, h12, h13]

/-- Every piece produced by `splitWsAux l acc` is an infix of
`acc.reverse ++ l`. -/
theorem splitWsAux_substring (l : PyStr) :
    ∀ (acc w : PyStr), w ∈ splitWsAux l acc → w <:+: acc.reverse ++ l := by
  induction l with
  | nil =>
    intro acc w hw
    simp only [splitWsAux] at hw
    split at hw
    · simp at hw
    · simp at hw
      subst hw
      exact ⟨[], [], by simp⟩
  | cons c cs ih =>
    intro acc w hw
    simp only [splitWsAux] at hw
    by_cases hc : c.isWhitespace
    · simp only [hc, if_true] at hw
      have hmem : w = acc.reverse ∨ w ∈ splitWsAux cs [] := by
        by_cases hacc : acc = []
        · simp only [hacc, if_true] at hw
          right; exact hw
        · simp only [hacc, if_false, List.mem_cons] at hw
          exact hw
      rcases hmem with rfl | hw'
      · exact ⟨[], c :: cs, by simp⟩
      · have := ih [] w hw'
        simp only [List.reverse_nil, List.nil_append] at this
        rcases this with ⟨s, t, hst⟩
        exact ⟨acc.reverse ++ c :: s, t, by simp [← hst]⟩
    · simp only [hc, if_false] at hw
      have := ih (c :: acc) w hw
      simpa [List.append_assoc] using this

/-- Every word of Python `s.split()` is a substring of `s`. -/
theorem pySplit_word_substring (s w : PyStr) (hw : w ∈ pySplit s) : w <:+: s := by
  have := splitWsAux_substring s [] w hw
  simpa using this

/-- `containsSub` decides the substring relation. -/
theorem containsSub_iff (s w : PyStr) : containsSub s w = true ↔ w <:+: s := by
  unfold containsSub
  rw [List.any_eq_true]
  constructor
  · rintro ⟨t, ht, hp⟩
    rw [List.mem_tails] at ht
    rw [List.isPrefixOf_iff_prefix] at hp
    exact hp.isInfix.trans ht.isInfix
  · intro h
    rw [List.infix_iff_prefix_suffix] at h
    rcases h with ⟨t, hp, hs⟩
    exact ⟨t, (List.mem_tails _ _).mpr hs, (List.isPrefixOf_iff_prefix).mpr hp⟩

/-- Character-wise lowering preserves the substring relation. -/
theorem pyLower_substring {w s : PyStr} (h : w <:+: s) : pyLower w <:+: pyLower s := by
  rcases h with ⟨a, b, hab⟩
  exact ⟨pyLower a, pyLower b, by simp [pyLower, ← hab]⟩

/-- Keywords come from words of the proposed work name: each is the
lowering of a word of `s` longer than 3 characters. -/
theorem mem_workKeywords {s kw : PyStr} (h : kw ∈ workKeywords s) :
    ∃ w, w ∈ pySplit s ∧ 3 < w.length ∧ kw = pyLower w := by
  unfold workKeywords at h
  rw [List.mem_map] at h
  rcases h with ⟨w, hw, rfl⟩
  rw [List.mem_filter] at hw
  exact ⟨w, hw.1, by simpa using hw.2, rfl⟩

/-- If every keyword occurs in `s`, the coverage test passes. -/
theorem coverageOK_of_all {s : PyStr} {ks : List PyStr}
    (h : ∀ kw ∈ ks, containsSub s kw = true) : coverageOK s ks = true := by
  unfold coverageOK
  have : ks.filter (fun kw => containsSub s kw) = ks := List.filter_eq_self.mpr h
  rw [this]
  simp [decide_eq_true_iff]
  omega

theorem fieldHasValue_iff (a : Tags) (k : String) :
    fieldHasValue a k = true ↔ ∃ v, (a k).head? = some v ∧ pyStrip v ≠ [] := by
  cases h : a k <;> simp [fieldHasValue, h]

set_option maxHeartbeats 1000000 in
theorem hpm_characterization (a : Tags) :
    ((has_proper_metadata a).1 = true ↔
      (fieldHasValue a "COMPOSER" = true ∧
       (fieldHasValue a "ALBUM" = true ∨ fieldHasValue a "WORK" = true) ∧
       fieldHasValue a "TITLE" = true ∧
       (fieldHasValue a "ARTIST" = true ∨ fieldHasValue a "ALBUMARTIST" = true))) ∧
    (∀ r : String, r ∈ (has_proper_metadata a).2 ↔
      ((r = "composer" ∧ ¬ fieldHasValue a "COMPOSER" = true) ∨
       (r = "work" ∧ ¬ (fieldHasValue a "ALBUM" = true ∨ fieldHasValue a "WORK" = true)) ∨
       (r = "title" ∧ ¬ fieldHasValue a "TITLE" = true) ∨
       (r = "artist" ∧ ¬ (fieldHasValue a "ARTIST" = true ∨ fieldHasValue a "ALBUMARTIST" = true)))) := by
  cases h1 : fieldHasValue a "COMPOSER" <;>
    cases h2 : fieldHasValue a "ALBUM" <;>
    cases h3 : fieldHasValue a "WORK" <;>
    cases h4 : fieldHasValue a "TITLE" <;>
    cases h5 : fieldHasValue a "ARTIST" <;>
    cases h6 : fieldHasValue a "ALBUMARTIST" <;>
    simp_all [has_proper_metadata, required_fields]

/-- C4: `has_proper_metadata` returns true iff each of the four logical
roles (composer, work-or-album, title, artist-or-album-artist) has at least
one backing physical tag whose value is non-empty after stripping
whitespace; otherwise it is false together with the list of missing roles.
The result is a function of the tag set alone (no proposal argument
exists). -/
theorem C4_required_field_set (a : Tags) :
    ((has_proper_metadata a).1 = true ↔
      ((∃ v, (a "COMPOSER").head? = some v ∧ pyStrip v ≠ []) ∧
       ((∃ v, (a "ALBUM").head? = some v ∧ pyStrip v ≠ []) ∨
        (∃ v, (a "WORK").head? = some v ∧ pyStrip v ≠ [])) ∧
       (∃ v, (a "TITLE").head? = some v ∧ pyStrip v ≠ []) ∧
       ((∃ v, (a "ARTIST").head? = some v ∧ pyStrip v ≠ []) ∨
        (∃ v, (a "ALBUMARTIST").head? = some v ∧ pyStrip v ≠ [])))) ∧
    (∀ r : String, r ∈ (has_proper_metadata a).2 ↔
      ((r = "composer" ∧ ¬ fieldHasValue a "COMPOSER" = true) ∨
       (r = "work" ∧ ¬ (fieldHasValue a "ALBUM" = true ∨ fieldHasValue a "WORK" = true)) ∨
       (r = "title" ∧ ¬ fieldHasValue a "TITLE" = true) ∨
       (r = "artist" ∧ ¬ (fieldHasValue a "ARTIST" = true ∨ fieldHasValue a "ALBUMARTIST" = true)))) := by
  obtain ⟨hfst, hsnd⟩ := hpm_characterization a
  refine ⟨?_, hsnd⟩
  rw [hfst]
  simp only [fieldHasValue_iff]

/-- C4 witness: a concrete tag set with all four roles present is judged
complete, and a concrete tag set missing the composer role reports exactly
`["composer"]`. -/
theorem C4_required_field_set_witness :
    (has_proper_metadata (setTag (setTag (setTag (setTag emptyTags
        "COMPOSER" ["Brahms, Johannes".data]) "ALBUM" ["Symphony No. 4".data])
        "TITLE" ["Symphony No. 4 - I.".data]) "ARTIST" ["Kleiber".data])).1 = true := by
  exact (C4_required_field_set _).1.mpr (by decide)

/-- C2: if the proposed short work name yields at least one keyword (token
longer than 3 characters) and the current TITLE contains, case-insensitively,
at least `ceil(n/2)` of the `n` keywords, the audit policy judges the
title adequate and emits no TITLE diff entry.  (`matches >= n * 0.5` on
integers is exactly `matches >= ceil(n/2)`.) -/
theorem C2_keyword_coverage_threshold (ct cc cf : PyStr) (m : Proposal)
    (hks : workKeywords (orEmpty m.work_short) ≠ [])
    (hcov : ((workKeywords (orEmpty m.work_short)).length + 1) / 2 ≤
      ((workKeywords (orEmpty m.work_short)).filter
        (fun kw => containsSub (pyLower ct) kw)).length) :
    (auditDecide ct cc cf m).titleChange = none := by
  have hws : orEmpty m.work_short ≠ [] := by
    intro h
    rw [h] at hks
    exact hks rfl
  have hn : 0 < (workKeywords (orEmpty m.work_short)).length :=
    List.length_pos.mpr hks
  have hm1 : 0 < ((workKeywords (orEmpty m.work_short)).filter
      (fun kw => containsSub (pyLower ct) kw)).length := by omega
  obtain ⟨kw, hkwmem⟩ := List.exists_mem_of_length_pos hm1
  rw [List.mem_filter] at hkwmem
  have hct : ct ≠ [] := by
    intro h
    obtain ⟨w, -, hwlen, rfl⟩ := mem_workKeywords hkwmem.1
    have hsub := (containsSub_iff _ _).mp hkwmem.2
    rw [h] at hsub
    have hlen := hsub.length_le
    simp only [pyLower, List.length_map, List.length_nil] at hlen
    omega
  have hhw : currentTitleHasWork ct m = true := by
    unfold currentTitleHasWork
    rw [if_pos ⟨hws, hct⟩]
    simp only [coverageOK, decide_eq_true_eq]
    omega
  simp [auditDecide, titleChangeOf, hhw]

/-- C2 witness: proposed work "Moonlight Sonata" has keywords
{moonlight, sonata}; the title "sonata no 14" contains 1 ≥ ceil(2/2) of
them, so no TITLE diff is emitted. -/
theorem C2_keyword_coverage_threshold_witness :
    (auditDecide "sonata no 14".data [] []
      { work_short := some "Moonlight Sonata".data }).titleChange = none :=
  C2_keyword_coverage_threshold _ _ _ _ (by decide) (by decide)

/-- C9: a non-empty current composer that is a case-insensitive substring of
the non-empty proposed composer is never flagged: no COMPOSER diff entry. -/
theorem C9_composer_substring_exemption (ct cc cf : PyStr) (m : Proposal)
    (hprop : orEmpty m.composer ≠ []) (hcur : cc ≠ [])
    (hsub : containsSub (pyLower (orEmpty m.composer)) (pyLower cc) = true) :
    (auditDecide ct cc cf m).composerChange = none := by
  unfold auditDecide composerChangeOf
  simp only
  rw [if_neg]
  rintro ⟨-, -, h3 | h3⟩
  · exact hcur h3
  · exact h3 hsub

/-- C9 witness: current "Beethoven" against proposed
"Beethoven, Ludwig van" produces no COMPOSER diff. -/
theorem C9_composer_substring_exemption_witness :
    (auditDecide [] "Beethoven".data []
      { composer := some "Beethoven, Ludwig van".data }).composerChange = none :=
  C9_composer_substring_exemption _ _ _ _ (by decide) (by decide) (by decide)

/-- C10 (implicit): when the non-empty proposed work name has no token
longer than 3 characters, the keyword list is empty and the coverage test is
vacuously satisfied (0 matches >= 0 required): any file with a non-empty
current TITLE gets no TITLE diff, and no rename is ever flagged, regardless
of the current title or filename content. -/
theorem C10_vacuous_coverage (ct cc cf : PyStr) (m : Proposal)
    (hws : orEmpty m.work_short ≠ [])
    (hkw : workKeywords (orEmpty m.work_short) = [])
    (hct : ct ≠ []) :
    (auditDecide ct cc cf m).titleChange = none ∧
    (auditDecide ct cc cf m).renameChange = none := by
  have hhw : currentTitleHasWork ct m = true := by
    unfold currentTitleHasWork
    rw [if_pos ⟨hws, hct⟩, hkw]
    simp [coverageOK]
  have hhn : currentHasWorkInName cf m = true := by
    unfold currentHasWorkInName
    rw [if_pos hws, hkw]
    simp [coverageOK]
  constructor
  · simp [auditDecide, titleChangeOf, hhw]
  · simp [auditDecide, renameChangeOf, hhn]

/-- C10 witness: proposed work "Op 9 No 2" has no token longer than 3
characters, so the unrelated title "Nocturne" and filename "track07" are
both judged adequate. -/
theorem C10_vacuous_coverage_witness :
    (auditDecide "Nocturne".data [] "track07".data
      { work_short := some "Op 9 No 2".data }).titleChange = none ∧
    (auditDecide "Nocturne".data [] "track07".data
      { work_short := some "Op 9 No 2".data }).renameChange = none :=
  C10_vacuous_coverage _ _ _ _ (by decide) (by decide) (by decide)

theorem joinDash_single (a : PyStr) : joinDash [a] = a := by
  simp [joinDash, List.intercalate]

theorem joinDash_pair (a b : PyStr) : joinDash [a, b] = a ++ " - ".data ++ b := by
  simp [joinDash, List.intercalate, List.intersperse]

theorem pyOr_eq_nil (a b : PyStr) : pyOr a b = [] ↔ a = [] ∧ b = [] := by
  by_cases h : a = [] <;> simp [pyOr, h]

/-- C5 counterexample: for the proposal with `work_short` null,
`work_full = "Symphony No. 5"` and `movement = "II. Andante"`, the claim's
cascade selects "movement alone", but the code writes
`"Symphony No. 5 - II. Andante"` (the TITLE work part falls back to
`work_full` when `work_short` is null). -/
theorem C5_title_derivation_counterexample :
    orEmpty ({ work_full := some "Symphony No. 5".data,
               movement := some "II. Andante".data } : Proposal).work_short = [] ∧
    orEmpty ({ work_full := some "Symphony No. 5".data,
               movement := some "II. Andante".data } : Proposal).movement ≠ [] ∧
    apply_metadata_tags emptyTags
      { work_full := some "Symphony No. 5".data,
        movement := some "II. Andante".data } "TITLE" ≠
      [orEmpty ({ work_full := some "Symphony No. 5".data,
                  movement := some "II. Andante".data } : Proposal).movement] ∧
    apply_metadata_tags emptyTags
      { work_full := some "Symphony No. 5".data,
        movement := some "II. Andante".data } "TITLE" =
      ["Symphony No. 5 - II. Andante".data] := by decide

/-- C5 amended: the written TITLE is `"{ws} - {movement}"` when both the
derived short work name `ws := work_short or work_full or work` and the
movement are present; else `ws` alone; else movement alone; else the
album/work value.  For the Moonlight Sonata proposal, TITLE becomes
`"Moonlight Sonata - I. Adagio sostenuto"`. -/
theorem C5_title_derivation_amended :
    (∀ (t : Tags) (m : Proposal),
      apply_metadata_tags t m "TITLE" =
        (if workShortVal m ≠ [] ∧ orEmpty m.movement ≠ [] then
          [workShortVal m ++ " - ".data ++ orEmpty m.movement]
        else if workShortVal m ≠ [] then [workShortVal m]
        else if orEmpty m.movement ≠ [] then [orEmpty m.movement]
        else if workFullVal m ≠ [] then [workFullVal m]
        else [])) ∧
    apply_metadata_tags emptyTags
      { composer := some "Beethoven, Ludwig van".data,
        work_short := some "Moonlight Sonata".data,
        movement := some "I. Adagio sostenuto".data } "TITLE" =
      ["Moonlight Sonata - I. Adagio sostenuto".data] := by
  constructor
  · intro t m
    rw [apply_metadata_tags_eq]
    by_cases hws : workShortVal m = [] <;> by_cases hmv : orEmpty m.movement = [] <;>
      simp [applyField, titleVal, hws, hmv, joinDash_single, joinDash_pair]
  · decide

/-- C6: a committed write is a full replace: the result is independent of
the prior tag set (all fields are cleared first); every proposal field that
is null or empty produces no tag at all (never an empty-string tag); and no
key outside the fixed written field set is ever present afterwards. -/
theorem C6_full_replace :
    (∀ (t t' : Tags) (m : Proposal) (k : String),
        apply_metadata_tags t m k = apply_metadata_tags t' m k) ∧
    (∀ (t : Tags) (m : Proposal),
        (orEmpty m.composer = [] → apply_metadata_tags t m "COMPOSER" = []) ∧
        (workFullVal m = [] →
          apply_metadata_tags t m "ALBUM" = [] ∧ apply_metadata_tags t m "WORK" = []) ∧
        (workShortVal m = [] → orEmpty m.movement = [] →
          apply_metadata_tags t m "TITLE" = []) ∧
        (orEmpty m.movement = [] → apply_metadata_tags t m "MOVEMENT" = []) ∧
        (pvTruthy m.performers = false →
          apply_metadata_tags t m "ARTIST" = [] ∧
          apply_metadata_tags t m "ALBUMARTIST" = []) ∧
        (orEmpty m.orchestra = [] →
          apply_metadata_tags t m "ORCHESTRA" = [] ∧
          apply_metadata_tags t m "ENSEMBLE" = []) ∧
        (pvTruthy m.soloists = false → apply_metadata_tags t m "PERFORMER" = []) ∧
        (orEmpty m.date = [] → apply_metadata_tags t m "DATE" = []) ∧
        (orEmpty m.disc = [] → apply_metadata_tags t m "DISCNUMBER" = []) ∧
        (orEmpty m.track = [] → apply_metadata_tags t m "TRACKNUMBER" = [])) ∧
    (∀ (t : Tags) (m : Proposal) (k : String),
        k ∉ (["COMPOSER", "ALBUM", "WORK", "TITLE", "MOVEMENT", "ARTIST",
              "ALBUMARTIST", "ORCHESTRA", "ENSEMBLE", "PERFORMER", "DATE",
              "DISCNUMBER", "TRACKNUMBER"] : List String) →
        apply_metadata_tags t m k = []) := by
  refine ⟨fun t t' m k => by rw [apply_metadata_tags_eq, apply_metadata_tags_eq],
    fun t m => ?_, fun t m k hk => ?_⟩
  · refine ⟨fun h => ?_, fun h => ⟨?_, ?_⟩, fun h1 h2 => ?_, fun h => ?_,
      fun h => ⟨?_, ?_⟩, fun h => ⟨?_, ?_⟩, fun h => ?_, fun h => ?_,
      fun h => ?_, fun h => ?_⟩ <;>
      rw [apply_metadata_tags_eq] <;>
      simp_all [applyField, titleVal]
    have hwf : workFullVal m = [] := by
      simp only [workShortVal, pyOr_eq_nil] at h1
      simp [workFullVal, pyOr_eq_nil, h1.1.1, h1.1.2, h1.2]
    simp [h1, h2, hwf]
  · rw [apply_metadata_tags_eq]
    simp only [List.mem_cons, List.not_mem_nil, or_false, not_or] at hk
    obtain ⟨n1, n2, n3, n4, n5, n6, n7, n8, n9, n10, n11, n12, n13⟩ := hk
    simp [applyField, n1, n2, n3, n4, n5, n6, n7, n8, n9, n10, n11, n12, n13]

/-- C6 witness: the all-null proposal applied over a tag set that previously
had a TITLE leaves COMPOSER absent, and an unrelated key "FOO" is absent in
any write result. -/
theorem C6_full_replace_witness :
    apply_metadata_tags (setTag emptyTags "TITLE" ["Old".data]) {} "COMPOSER" = [] ∧
    apply_metadata_tags emptyTags {} "FOO" = [] :=
  ⟨(C6_full_replace.2.1 _ _).1 rfl, C6_full_replace.2.2 _ _ _ (by decide)⟩

/-- C3 counterexample: a proposal object with keys present but all values
null (exactly what the inference prompt produces for "use null if
uncertain") is truthy in Python, so it is NOT counted as a failure: the
audit policy classifies the file as verified, and the normal policy applies
it, clearing the file's tags (a mutation) while counting it processed. -/
theorem C3_empty_proposal_counterexample :
    auditOutcome "Old Title".data [] "track01".data (.dict true {}) = .verified ∧
    AuditOutcome.verified ≠ AuditOutcome.failed ∧
    (normalStep (setTag emptyTags "TITLE" ["Old Title".data]) (.dict true {})).1 =
      .processed ∧
    (normalStep (setTag emptyTags "TITLE" ["Old Title".data]) (.dict true {})).2
      "TITLE" = [] ∧
    setTag emptyTags "TITLE" ["Old Title".data] "TITLE" ≠ [] := by decide

/-- C3 amended: an absent inference result (network/JSON-parse failure
returning nothing) or an empty JSON object is counted as a processing
failure, with no mutation of tags, in both policies; but a proposal present
with all fields null is not a failure (the audit policy yields a decision
with no changes and counts the file verified; the normal policy applies it
wholesale). -/
theorem C3_failure_on_empty_amended (ct cc cf : PyStr) (tags : Tags) (p : Proposal)
    (hmeta : (has_proper_metadata tags).1 = false) :
    auditOutcome ct cc cf .failure = .failed ∧
    auditOutcome ct cc cf (.dict false p) = .failed ∧
    normalStep tags .failure = (.failed, tags) ∧
    normalStep tags (.dict false p) = (.failed, tags) := by
  refine ⟨rfl, rfl, ?_, ?_⟩ <;> simp [normalStep, hmeta]

/-- C3 witness: a file with no tags and a failed inference is counted
failed and left untouched. -/
theorem C3_failure_on_empty_amended_witness :
    auditOutcome [] [] [] .failure = .failed ∧
    normalStep emptyTags .failure = (.failed, emptyTags) := by
  have h := C3_failure_on_empty_amended [] [] [] emptyTags {} (by decide)
  exact ⟨h.1, h.2.2.1⟩

/-- Every keyword of `ws` occurs, lowered, in `pyLower (ws ++ r)`. -/
theorem coverage_append (ws r : PyStr) :
    ∀ kw ∈ workKeywords ws, containsSub (pyLower (ws ++ r)) kw = true := by
  intro kw hkw
  obtain ⟨w, hwmem, -, rfl⟩ := mem_workKeywords hkw
  have h1 : w <:+: ws ++ r :=
    (pySplit_word_substring ws w hwmem).trans (List.prefix_append ws r).isInfix
  exact (containsSub_iff _ _).mpr (pyLower_substring h1)

/-- C1 amended: audit convergence holds for proposals whose `work_short` is
non-null and non-empty, provided the committed rename actually left the stem
equal to the suggested filename (sanitization and collision suffixing did
not alter it): after committing the tag write, a second audit run with the
identical proposal detects no changes. -/
theorem C1_audit_convergence_amended (m : Proposal) (stem' : PyStr) (t : Tags)
    (hws : orEmpty m.work_short ≠ [])
    (hstem : orEmpty m.suggested_filename ≠ [] → stem' = orEmpty m.suggested_filename) :
    changesDetected (auditDecide
      (tagFirst (apply_metadata_tags t m) "TITLE")
      (tagFirst (apply_metadata_tags t m) "COMPOSER") stem' m) = false := by
  have hwsv : workShortVal m = orEmpty m.work_short := by
    simp [workShortVal, pyOr, hws]
  have hTapp : apply_metadata_tags t m "TITLE" = titleVal m := by
    rw [apply_metadata_tags_eq]
    simp [applyField]
  have hCapp : apply_metadata_tags t m "COMPOSER" =
      (if orEmpty m.composer ≠ [] then [orEmpty m.composer] else []) := by
    rw [apply_metadata_tags_eq]
    simp [applyField]
  obtain ⟨r, hr⟩ : ∃ r, tagFirst (apply_metadata_tags t m) "TITLE" =
      orEmpty m.work_short ++ r := by
    by_cases hmv : orEmpty m.movement = []
    · exact ⟨[], by simp [tagFirst, hTapp, titleVal, hwsv, hws, hmv, joinDash_single]⟩
    · refine ⟨" - ".data ++ orEmpty m.movement, ?_⟩
      simp [tagFirst, hTapp, titleVal, hwsv, hws, hmv, joinDash_pair, List.append_assoc]
  have htc : titleChangeOf (tagFirst (apply_metadata_tags t m) "TITLE") m = none := by
    have hTne : tagFirst (apply_metadata_tags t m) "TITLE" ≠ [] := by
      rw [hr]
      simp [hws]
    have hhw : currentTitleHasWork (tagFirst (apply_metadata_tags t m) "TITLE") m = true := by
      unfold currentTitleHasWork
      rw [if_pos ⟨hws, hTne⟩, hr]
      exact coverageOK_of_all (coverage_append _ _)
    simp [titleChangeOf, hhw]
  have hcc : composerChangeOf (tagFirst (apply_metadata_tags t m) "COMPOSER") m = none := by
    by_cases hc : orEmpty m.composer = []
    · simp [composerChangeOf, hc]
    · have hceq : tagFirst (apply_metadata_tags t m) "COMPOSER" = orEmpty m.composer := by
        simp [tagFirst, hCapp, hc]
      simp [composerChangeOf, hceq]
  have hrc : renameChangeOf stem' m = none := by
    by_cases hsf : orEmpty m.suggested_filename = []
    · simp [renameChangeOf, hsf]
    · have hst := hstem hsf
      subst hst
      simp [renameChangeOf]
  simp [auditDecide, changesDetected, htc, hcc, hrc]

/-- C1 amended witness: committing the Moonlight Sonata proposal (with its
suggested stem surviving sanitization) makes the second audit pass report no
changes. -/
theorem C1_audit_convergence_amended_witness :
    changesDetected (auditDecide
      (tagFirst (apply_metadata_tags emptyTags
        { composer := some "Beethoven, Ludwig van".data,
          work_short := some "Moonlight Sonata".data,
          movement := some "I. Adagio sostenuto".data,
          suggested_filename := some "01 - Beethoven - Moonlight Sonata".data }) "TITLE")
      (tagFirst (apply_metadata_tags emptyTags
        { composer := some "Beethoven, Ludwig van".data,
          work_short := some "Moonlight Sonata".data,
          movement := some "I. Adagio sostenuto".data,
          suggested_filename := some "01 - Beethoven - Moonlight Sonata".data }) "COMPOSER")
      "01 - Beethoven - Moonlight Sonata".data
      { composer := some "Beethoven, Ludwig van".data,
        work_short := some "Moonlight Sonata".data,
        movement := some "I. Adagio sostenuto".data,
        suggested_filename := some "01 - Beethoven - Moonlight Sonata".data }) = false :=
  C1_audit_convergence_amended _ _ _ (by decide) (fun _ => rfl)

/-- C1 counterexample: for the proposal with a null `work_short` (but a
`work_full` and a movement), the first audit pass on a junk-titled file
flags changes and they are committed exactly as the code commits them (tags
written, file renamed to precisely the suggested stem), yet the second pass
with the identical proposal flags a TITLE change again: the written TITLE is
`"{work_full} - {movement}"` while the audit's ideal title is the movement
alone, so `changes_detected` is true forever and the claim's universal
convergence fails. -/
theorem C1_audit_convergence_counterexample :
    changesDetected (auditDecide "junk".data [] "junk".data
      { composer := some "Beethoven, Ludwig van".data,
        work_full := some "Symphony No. 5 in C minor".data,
        movement := some "II. Andante".data,
        suggested_filename := some "02 - Beethoven - Andante".data }) = true ∧
    rename_file ["junk.flac".data] "junk".data ".flac".data
      (orEmpty ({ composer := some "Beethoven, Ludwig van".data,
                  work_full := some "Symphony No. 5 in C minor".data,
                  movement := some "II. Andante".data,
                  suggested_filename := some "02 - Beethoven - Andante".data } :
        Proposal).suggested_filename) 5 =
      some (["02 - Beethoven - Andante.flac".data], "02 - Beethoven - Andante".data, true) ∧
    changesDetected (auditDecide
      (tagFirst (apply_metadata_tags emptyTags
        { composer := some "Beethoven, Ludwig van".data,
          work_full := some "Symphony No. 5 in C minor".data,
          movement := some "II. Andante".data,
          suggested_filename := some "02 - Beethoven - Andante".data }) "TITLE")
      (tagFirst (apply_metadata_tags emptyTags
        { composer := some "Beethoven, Ludwig van".data,
          work_full := some "Symphony No. 5 in C minor".data,
          movement := some "II. Andante".data,
          suggested_filename := some "02 - Beethoven - Andante".data }) "COMPOSER")
      "02 - Beethoven - Andante".data
      { composer := some "Beethoven, Ludwig van".data,
        work_full := some "Symphony No. 5 in C minor".data,
        movement := some "II. Andante".data,
        suggested_filename := some "02 - Beethoven - Andante".data }) = true := by decide

/-- The collision loop stops only at a name that is either the file's own
name or not present in the directory. -/
theorem renameLoop_exit (fs : List PyStr) (selfFull suffix base : PyStr) :
    ∀ (fuel counter : Nat) (cur t : PyStr),
      renameLoop fs selfFull suffix base cur counter fuel = some t →
      t ++ suffix = selfFull ∨ (t ++ suffix) ∉ fs := by
  intro fuel
  induction fuel with
  | zero =>
    intro counter cur t h
    simp [renameLoop] at h
  | succ n ih =>
    intro counter cur t h
    rw [renameLoop] at h
    split at h
    · exact ih _ _ _ h
    · rename_i hcond
      injection h with h
      subst h
      by_cases hm : cur ++ suffix ∈ fs
      · left
        by_contra hne
        exact hcond ⟨hm, hne⟩
      · right
        exact hm

/-- A completed `rename_file` lands on a name that is the file's own name or
fresh, and keeps every other directory entry. -/
theorem rename_file_safety (fs : List PyStr) (selfStem suffix desired : PyStr)
    (fuel : Nat) (fs' : List PyStr) (stem' : PyStr) (renamed : Bool)
    (h : rename_file fs selfStem suffix desired fuel = some (fs', stem', renamed)) :
    (stem' ++ suffix = selfStem ++ suffix ∨ (stem' ++ suffix) ∉ fs) ∧
    (∀ f ∈ fs, f ≠ selfStem ++ suffix → f ∈ fs') := by
  rw [rename_file] at h
  split at h
  · rename_i heq
    injection h with h
    injection h with h1 h2
    injection h2 with h2 h3
    subst h1
    subst h2
    exact ⟨Or.inl rfl, fun f hf _ => hf⟩
  · rename_i hne
    cases hr : renameLoop fs (selfStem ++ suffix) suffix (sanitize_filename desired)
        (sanitize_filename desired) 1 fuel with
    | none => rw [hr] at h; exact absurd h (by simp)
    | some st =>
      rw [hr] at h
      injection h with h
      injection h with h1 h2
      injection h2 with h2 h3
      subst h1
      subst h2
      refine ⟨renameLoop_exit fs _ suffix _ fuel 1 _ _ hr, fun f hf hfne => ?_⟩
      exact List.mem_cons_of_mem _ ((List.mem_erase_of_ne hfne).mpr hf)

/-- A completed `rename_file` of a file present in the directory leaves the
resulting name present in the new listing. -/
theorem rename_file_mem (fs : List PyStr) (selfStem suffix desired : PyStr)
    (fuel : Nat) (fs' : List PyStr) (stem' : PyStr) (renamed : Bool)
    (h : rename_file fs selfStem suffix desired fuel = some (fs', stem', renamed))
    (hself : (selfStem ++ suffix) ∈ fs) : (stem' ++ suffix) ∈ fs' := by
  rw [rename_file] at h
  split at h
  · injection h with h
    injection h with h1 h2
    injection h2 with h2 h3
    subst h1
    subst h2
    exact hself
  · cases hr : renameLoop fs (selfStem ++ suffix) suffix (sanitize_filename desired)
        (sanitize_filename desired) 1 fuel with
    | none => rw [hr] at h; exact absurd h (by simp)
    | some st =>
      rw [hr] at h
      injection h with h
      injection h with h1 h2
      injection h2 with h2 h3
      subst h1
      subst h2
      exact List.mem_cons_self _ _

/-- C8 counterexample: with directory `{Foo.flac, Foo (1).flac}`, renaming
`Foo (1).flac` to desired stem `Foo` (whose target `Foo.flac` is occupied by
a different file) makes the collision loop stop at the file's own occupied
name `Foo (1).flac`: the returned path equals a pre-existing file's path, so
the loop does not always stop at a free name. -/
theorem C8_rename_collision_counterexample :
    rename_file ["Foo.flac".data, "Foo (1).flac".data] "Foo (1)".data ".flac".data
      "Foo".data 5 =
      some (["Foo (1).flac".data, "Foo.flac".data], "Foo (1)".data, true) ∧
    ("Foo (1)".data ++ ".flac".data) ∈
      (["Foo.flac".data, "Foo (1).flac".data] : List PyStr) := by decide

/-- C8 amended: a completed rename returns a path that is distinct from
every pre-existing file's path other than possibly the renamed file's own
path (the loop may stop back on the file's current name, a no-op rename);
no other existing file is ever overwritten, every other directory entry
survives; and renaming two different assets to the same desired stem in
sequence gives the second a path distinct from the first's, leaving the
first asset's file present. -/
theorem C8_rename_collision_amended :
    (∀ (fs : List PyStr) (selfStem suffix desired : PyStr) (fuel : Nat)
        (fs' : List PyStr) (stem' : PyStr) (renamed : Bool),
      rename_file fs selfStem suffix desired fuel = some (fs', stem', renamed) →
      (stem' ++ suffix = selfStem ++ suffix ∨ (stem' ++ suffix) ∉ fs) ∧
      (∀ f ∈ fs, f ≠ selfStem ++ suffix → f ∈ fs')) ∧
    (∀ (fs : List PyStr) (aStem bStem suffix desired : PyStr) (fuel1 fuel2 : Nat)
        (fs1 : List PyStr) (s1 : PyStr) (r1 : Bool)
        (fs2 : List PyStr) (s2 : PyStr) (r2 : Bool),
      (aStem ++ suffix) ∈ fs → (bStem ++ suffix) ∈ fs →
      aStem ++ suffix ≠ bStem ++ suffix →
      rename_file fs aStem suffix desired fuel1 = some (fs1, s1, r1) →
      rename_file fs1 bStem suffix desired fuel2 = some (fs2, s2, r2) →
      (s1 ++ suffix) ∈ fs2 ∧ s2 ++ suffix ≠ s1 ++ suffix) := by
  refine ⟨fun fs selfStem suffix desired fuel fs' stem' renamed h =>
    rename_file_safety fs selfStem suffix desired fuel fs' stem' renamed h, ?_⟩
  intro fs aS bS suffix desired f1 f2 fs1 s1 r1 fs2 s2 r2 ha hb hne h1 h2
  have hm1 : (s1 ++ suffix) ∈ fs1 := rename_file_mem _ _ _ _ _ _ _ _ h1 ha
  have hd1 := (rename_file_safety _ _ _ _ _ _ _ _ h1).1
  have hs1b : s1 ++ suffix ≠ bS ++ suffix := by
    rcases hd1 with h | h
    · rw [h]; exact hne
    · intro he
      rw [he] at h
      exact h hb
  have hd2 := (rename_file_safety _ _ _ _ _ _ _ _ h2).1
  constructor
  · exact (rename_file_safety _ _ _ _ _ _ _ _ h2).2 _ hm1 hs1b
  · rcases hd2 with h | h
    · rw [h]
      exact fun he => hs1b he.symm
    · intro he
      rw [he] at h
      exact h hm1

/-- C8 amended witness: renaming `a.flac` then `b.flac` to stem `New` gives
`New.flac` then `New (1).flac`; the first asset's file survives the second
rename. -/
theorem C8_rename_collision_amended_witness :
    ("New".data ++ ".flac".data) ∈ (["New (1).flac".data, "New.flac".data] : List PyStr) ∧
    "New (1)".data ++ ".flac".data ≠ "New".data ++ ".flac".data :=
  C8_rename_collision_amended.2 ["a.flac".data, "b.flac".data] "a".data "b".data
    ".flac".data "New".data 5 5 ["New.flac".data, "b.flac".data] "New".data true
    ["New (1).flac".data, "New.flac".data] "New (1)".data true
    (by decide) (by decide) (by decide) (by decide) (by decide)

/-- The backup-name collision loop stops only at an unoccupied path. -/
theorem backupLoop_exit (fs : Fsm) (cand : Nat → String) :
    ∀ (fuel counter : Nat) (cur bk : String),
      backupLoop fs cand cur counter fuel = some bk → fs bk = none := by
  intro fuel
  induction fuel with
  | zero =>
    intro counter cur bk h
    simp [backupLoop] at h
  | succ n ih =>
    intro counter cur bk h
    rw [backupLoop] at h
    split at h
    · exact ih _ _ _ h
    · rename_i hcond
      injection h with h
      subst h
      cases hfc : fs cur with
      | none => rfl
      | some c =>
        rw [hfc] at hcond
        simp at hcond

/-- C7: after `convert_to_flac` returns (success or failure), either the
encoder output sits at the original path with a byte-identical copy of the
original bytes at a backup path that was previously unoccupied, or the
original file is untouched at its original path; and whenever the converted
file was installed, the backup move strictly precedes the install in the
event trace. -/
theorem C7_transcoder_backup_durability
    (fs : Fsm) (dir stem suffix bdir : String) (enc : Option FfmpegRun)
    (fuel : Nat) (c0 : Content) (ok : Bool) (fs' : Fsm) (tr : List CEvent)
    (hx : fs (dir ++ stem ++ suffix) = some c0)
    (hsep : dir ++ "." ++ stem ++ "_converted.flac" ≠ dir ++ stem ++ suffix)
    (hrun : convert_to_flac fs dir stem suffix bdir enc fuel = some (ok, fs', tr)) :
    ((∃ bk run, enc = some run ∧ run.rc = 0 ∧
        fs' (dir ++ stem ++ suffix) = run.output ∧
        fs' bk = some c0 ∧ fs bk = none) ∨
      fs' (dir ++ stem ++ suffix) = some c0) ∧
    (CEvent.installedCanonical ∈ tr →
      ∃ bk, List.Sublist [CEvent.movedToBackup bk, CEvent.installedCanonical] tr) := by
  cases enc with
  | none =>
    simp only [convert_to_flac, Option.some.injEq, Prod.mk.injEq] at hrun
    obtain ⟨-, h2, h3⟩ := hrun
    subst h2
    subst h3
    exact ⟨Or.inr hx, by simp⟩
  | some run =>
    simp only [convert_to_flac, hx] at hrun
    by_cases hrc : run.rc = 0
    · rw [if_neg (by simp [hrc])] at hrun
      by_cases hout : run.output = none
      · rw [if_pos (by simp [hout])] at hrun
        simp only [Option.some.injEq, Prod.mk.injEq] at hrun
        obtain ⟨-, h2, h3⟩ := hrun
        subst h2
        subst h3
        refine ⟨Or.inr ?_, by simp⟩
        simp [Ne.symm hsep, hx]
      · rw [if_neg (by simp [hout])] at hrun
        rw [Option.map_eq_some'] at hrun
        obtain ⟨bk, hb, hrun⟩ := hrun
        simp only [Prod.mk.injEq] at hrun
        obtain ⟨-, h2, h3⟩ := hrun
        subst h2
        subst h3
        have hbk' : (if bk = dir ++ "." ++ stem ++ "_converted.flac" then run.output
            else fs bk) = none := backupLoop_exit _ _ fuel 1 _ _ hb
        have hbt : bk ≠ dir ++ "." ++ stem ++ "_converted.flac" := by
          intro he
          rw [if_pos he] at hbk'
          exact hout hbk'
        have hbkfs : fs bk = none := by
          rw [if_neg hbt] at hbk'
          exact hbk'
        have hbf : bk ≠ dir ++ stem ++ suffix := by
          intro he
          rw [he] at hbkfs
          rw [hbkfs] at hx
          exact Option.noConfusion hx
        refine ⟨Or.inl ⟨bk, run, rfl, hrc, ?_, ?_, hbkfs⟩,
          fun _ => ⟨bk, List.Sublist.cons _ (List.Sublist.refl _)⟩⟩
        · simp [moveFile, Ne.symm hbt, hsep]
        · simp [moveFile, hbf, hbt, Ne.symm hsep, hx]
    · rw [if_pos (by simp [hrc])] at hrun
      simp only [Option.some.injEq, Prod.mk.injEq] at hrun
      obtain ⟨-, h2, h3⟩ := hrun
      subst h2
      subst h3
      refine ⟨Or.inr ?_, by simp⟩
      simp [Ne.symm hsep, hx]

/-- C7 witness: a concrete successful conversion of an M4A file installs the
encoder output at the original path, with the original bytes at a fresh
backup path, and the trace orders backup before install. -/
theorem C7_transcoder_backup_durability_witness :
    ∃ (ok : Bool) (fs' : Fsm) (tr : List CEvent),
      convert_to_flac
        (fun p => if p = "D/x.m4a" then some [0, 0, 0, 24, 1, 2, 3] else none)
        "D/" "x" ".m4a" "B" (some ⟨0, some [102, 76, 97, 67, 9], true⟩) 3 =
        some (ok, fs', tr) ∧
      (((∃ bk run,
          (some ⟨0, some [102, 76, 97, 67, 9], true⟩ : Option FfmpegRun) = some run ∧
          run.rc = 0 ∧
          fs' ("D/" ++ "x" ++ ".m4a") = run.output ∧
          fs' bk = some [0, 0, 0, 24, 1, 2, 3] ∧
          (fun p => if p = "D/x.m4a" then some [0, 0, 0, 24, 1, 2, 3] else none) bk
            = none) ∨
        fs' ("D/" ++ "x" ++ ".m4a") = some [0, 0, 0, 24, 1, 2, 3]) ∧
      (CEvent.installedCanonical ∈ tr →
        ∃ bk, List.Sublist [CEvent.movedToBackup bk, CEvent.installedCanonical] tr)) := by
  refine ⟨_, _, _, rfl, ?_⟩
  exact C7_transcoder_backup_durability
    (fun p => if p = "D/x.m4a" then some [0, 0, 0, 24, 1, 2, 3] else none)
    "D/" "x" ".m4a" "B" (some ⟨0, some [102, 76, 97, 67, 9], true⟩) 3
    [0, 0, 0, 24, 1, 2, 3] _ _ _ (by decide) (by decide) rfl
